import Mathlib

/-!
Shallow embedding of the Course Scheduler core (`src/main.py`):
the time-interval overlap model, schedule validation, enumeration and
display ordering, together with the persistence layer (serialization of
times, the multi-student JSON store, and the course-editing operations on
the active catalog).  Python `datetime.time` values are modelled at minute
resolution (the only resolution the program constructs and serializes);
Python dicts are modelled as insertion-ordered association lists.
-/

namespace CourseScheduler

/-- A clock time at minute resolution, modelling the `datetime.time`
values the program builds with `time(hour=..., minute=...)`. -/
structure ClockTime where
  hour : Nat
  minute : Nat
deriving DecidableEq, Repr

/-- Python `<` on `datetime.time`: lexicographic on (hour, minute). -/
def timeLt (a b : ClockTime) : Bool :=
  decide (a.hour < b.hour ∨ (a.hour = b.hour ∧ a.minute < b.minute))

/-- Python `<=` on `datetime.time`: lexicographic on (hour, minute). -/
def timeLe (a b : ClockTime) : Bool :=
  decide (a.hour < b.hour ∨ (a.hour = b.hour ∧ a.minute ≤ b.minute))

/-- A section tuple `(day_of_week, start_time, end_time)`. -/
structure Section where
  day : String
  start : ClockTime
  stop : ClockTime
deriving DecidableEq, Repr

/-- Placeholder used only for out-of-range indexing in the embedding. -/
def defaultSection : Section := ⟨"", ⟨0, 0⟩, ⟨0, 0⟩⟩

/-- Python `str.lower()`: every character lowercased. -/
def pyLower (s : String) : String := String.mk (s.data.map Char.toLower)

/-- Python `str.capitalize()`: first character uppercased, the rest
lowercased. -/
def pyCapitalize (s : String) : String :=
  match s.data with
  | [] => String.mk []
  | c :: cs => String.mk (c.toUpper :: cs.map Char.toLower)

/-- `times_overlap(section1, section2)` from `src/main.py`: different
(case-insensitively compared) days never overlap; on the same day the
test is `start1 < end2 and end1 > start2`. -/
def times_overlap (s1 s2 : Section) : Bool :=
  if pyLower s1.day ≠ pyLower s2.day then false
  else timeLt s1.start s2.stop && timeLt s2.start s1.stop

/-- `is_valid_schedule(schedule)` from `src/main.py`: the nested index
loops `for i in range(len)` / `for j in range(i+1, len)` return `False`
as soon as some pair overlaps. -/
def is_valid_schedule (schedule : List Section) : Bool :=
  (List.range schedule.length).all fun i =>
    (List.range' (i + 1) (schedule.length - (i + 1))).all fun j =>
      ! times_overlap (schedule.getD i defaultSection) (schedule.getD j defaultSection)

/-- The `day_order` dictionary from `src/main.py`. -/
def day_order : List (String × Nat) :=
  [("monday", 0), ("tuesday", 1), ("wednesday", 2), ("thursday", 3),
   ("friday", 4), ("saturday", 5), ("sunday", 6)]

/-- `get_day_index(day_str)`: `day_order.get(day_str.lower(), 999)`. -/
def get_day_index (day_str : String) : Nat :=
  (day_order.lookup (pyLower day_str)).getD 999

/-- The ASCII digit character for `n < 10`. -/
def digitChar (n : Nat) : Char := Char.ofNat (48 + n)

/-- Two-digit zero-padded rendering of an hour or minute field, as
produced by `strftime` with `%H` / `%M`. -/
def nat2 (n : Nat) : List Char := [digitChar (n / 10), digitChar (n % 10)]

/-- `time_to_string(t)` from `src/main.py`: `t.strftime("%H:%M")`. -/
def time_to_string (t : ClockTime) : String :=
  String.mk (nat2 t.hour ++ [':'] ++ nat2 t.minute)

/-- Consume one or two leading decimal digits, as `strptime` does for a
two-digit numeric directive. -/
def takeDigits2 : List Char → Option (Nat × List Char)
  | c1 :: c2 :: rest =>
    if c1.isDigit then
      if c2.isDigit then some ((c1.toNat - 48) * 10 + (c2.toNat - 48), rest)
      else some (c1.toNat - 48, c2 :: rest)
    else none
  | [c1] => if c1.isDigit then some (c1.toNat - 48, []) else none
  | [] => none

/-- `string_to_time(s)` from `src/main.py`:
`datetime.strptime(s, "%H:%M").time()`.  Parsing failure (a `ValueError`
in Python) is `none`. -/
def string_to_time (s : String) : Option ClockTime :=
  match takeDigits2 s.data with
  | some (h, rest) =>
    match rest with
    | ':' :: rest2 =>
      match takeDigits2 rest2 with
      | some (m, []) => if h < 24 ∧ m < 60 then some ⟨h, m⟩ else none
      | _ => none
    | _ => none
  | none => none

/-- `itertools.product` over a list of section lists: one choice per
course, first course varying slowest. -/
def productLists : List (List Section) → List (List Section)
  | [] => [[]]
  | l :: ls => l.flatMap fun x => (productLists ls).map fun rest => x :: rest

/-- One line of displayed schedule output: `(day, st, et, cname)` as
built in `generate_schedules`. -/
abbrev DisplayEntry : Type := String × ClockTime × ClockTime × String

/-- The comparison induced by the sort key
`(get_day_index(x[0]), x[1])` used in `generate_schedules`
(`tuple` comparison is lexicographic; times compare lexicographically on
(hour, minute)). -/
def keyLE (a b : DisplayEntry) : Prop :=
  get_day_index a.1 < get_day_index b.1 ∨
    (get_day_index a.1 = get_day_index b.1 ∧
      (a.2.1.hour < b.2.1.hour ∨
        (a.2.1.hour = b.2.1.hour ∧ a.2.1.minute ≤ b.2.1.minute)))

instance : DecidableRel keyLE := fun a b => by
  unfold keyLE; infer_instance

instance : IsTotal DisplayEntry keyLE := by
  constructor; intro a b; unfold keyLE; omega

instance : IsTrans DisplayEntry keyLE := by
  constructor; intro a b c; unfold keyLE; omega

/-- `schedule_info.sort(key=lambda x: (get_day_index(x[0]), x[1]))`:
a stable sort by the key comparison `keyLE`. -/
def sortScheduleInfo (l : List DisplayEntry) : List DisplayEntry :=
  List.insertionSort keyLE l

/-- The `(day, st, et, cname)` rows of one schedule, from
`zip(course_names, schedule)`. -/
def scheduleInfo (names : List String) (combo : List Section) : List DisplayEntry :=
  (names.zip combo).map fun p => (p.2.day, p.2.start, p.2.stop, p.1)

/-- The computational core of `generate_schedules` in `src/main.py`: with
no courses, nothing is produced (the method only prints a message);
otherwise the cartesian product of the per-course section lists is
filtered by `is_valid_schedule` and each surviving schedule is displayed
sorted by `(get_day_index(day), start)`. -/
def generate_schedules (courses : List (String × List Section)) :
    List (List DisplayEntry) :=
  if courses = [] then []
  else
    ((productLists (courses.map Prod.snd)).filter is_valid_schedule).map
      fun combo => sortScheduleInfo (scheduleInfo (courses.map Prod.fst) combo)

/-- A serialized section triple `[day, "HH:MM", "HH:MM"]` as stored in
the JSON file. -/
abbrev StoredSection : Type := String × String × String

/-- The in-memory catalog of the active student:
`self.active_courses = { course_name: [(day, start, end), ...] }`. -/
abbrev Catalog : Type := List (String × List Section)

/-- One student's `"courses"` mapping in serialized form. -/
abbrev StoredCatalog : Type := List (String × List StoredSection)

/-- `self.users_data`: student id → serialized courses mapping. -/
abbrev UsersData : Type := List (String × StoredCatalog)

/-- Python `k in d` on an insertion-ordered dict. -/
def containsKey {β : Type} (l : List (String × β)) (k : String) : Bool :=
  l.any fun p => p.1 == k

/-- Python `d[k] = v` on an insertion-ordered dict: replace in place if
the key is present, append otherwise. -/
def setKey {β : Type} (l : List (String × β)) (k : String) (v : β) :
    List (String × β) :=
  if containsKey l k then l.map fun p => if p.1 == k then (k, v) else p
  else l ++ [(k, v)]

/-- Python `del d[k]` on an insertion-ordered dict. -/
def delKey {β : Type} (l : List (String × β)) (k : String) : List (String × β) :=
  l.filter fun p => p.1 != k

/-- Serialization of one section in `save_student_data`:
`(day, time_to_string(st), time_to_string(et))`. -/
def stringifySection (s : Section) : StoredSection :=
  (s.day, time_to_string s.start, time_to_string s.stop)

/-- The `final_dict` construction in `save_student_data`: every section
of every course rendered with `time_to_string`. -/
def stringifyCatalog (c : Catalog) : StoredCatalog :=
  c.map fun p => (p.1, p.2.map stringifySection)

/-- Deserialization of one stored triple in `load_student_data`; `none`
models the `ValueError` that `string_to_time` raises on a malformed
time. -/
def parseSection (t : StoredSection) : Option Section :=
  match string_to_time t.2.1, string_to_time t.2.2 with
  | some st, some et => some ⟨t.1, st, et⟩
  | _, _ => none

/-- The loading loop of `load_student_data` over one student's stored
courses. -/
def parseCatalog (sc : StoredCatalog) : Option Catalog :=
  sc.mapM fun p => (p.2.mapM parseSection).map fun secs => (p.1, secs)

/-- Outcome of the `json.dump` write in `save_student_data`. -/
inductive WriteResult where
  | ok : WriteResult
  | failed : String → WriteResult

/-- What reading `schedules_data.json` yields in `load_student_data`:
the file may be absent, present but not valid JSON, or parsed. -/
inductive StoreRead where
  | missing : StoreRead
  | unparsable : StoreRead
  | parsed : UsersData → StoreRead

/-- `save_student_data(auto)` from `src/main.py`.  State touched: the
in-memory `users_data` (updated before the file write is attempted) and
the list of messages shown to the user.  `write` is the outcome of the
attempted `json.dump`. -/
def save_student_data (activeStudent : Option String) (activeCourses : Catalog)
    (usersData : UsersData) (write : WriteResult) (auto : Bool) :
    UsersData × List String :=
  match activeStudent with
  | none =>
    (usersData,
      if auto then [] else ["No active student selected. Please enter Student ID and Load."])
  | some sid =>
    let ud := setKey usersData sid (stringifyCatalog activeCourses)
    match write with
    | .ok => (ud, if auto then [] else ["Data saved for student ID " ++ sid ++ "."])
    | .failed e => (ud, if auto then [] else ["Error saving data: " ++ e])

/-- `auto_save` from `src/main.py`: every 5 seconds it calls
`save_student_data(auto=True)` when a student is active (with no active
student both do nothing and show nothing). -/
def auto_save (activeStudent : Option String) (activeCourses : Catalog)
    (usersData : UsersData) (write : WriteResult) : UsersData × List String :=
  save_student_data activeStudent activeCourses usersData write true

/-- Result of `load_student_data`: the new `users_data`, the active
student's courses (`none` when the operation aborted on a blank id or a
stored time failed to parse, which in Python raises out of the method),
and the messages shown. -/
structure LoadResult where
  usersData : UsersData
  activeCourses : Option Catalog
  messages : List String
deriving Repr

/-- `load_student_data` from `src/main.py`.  A blank id aborts; a
readable file replaces `users_data`; a `json.JSONDecodeError` resets
`users_data` to `{}`; a *missing* file leaves `users_data` untouched.
Then the student gets a blank entry if absent, and their stored courses
are parsed back into time objects. -/
def load_student_data (sid : String) (usersData : UsersData)
    (store : StoreRead) : LoadResult :=
  if sid = "" then ⟨usersData, none, ["Please enter a valid Student ID first."]⟩
  else
    let ud := match store with
      | .missing => usersData
      | .unparsable => []
      | .parsed d => d
    let ud2 := if containsKey ud sid then ud else ud ++ [(sid, [])]
    match parseCatalog ((ud2.lookup sid).getD []) with
    | some c => ⟨ud2, some c, ["Loaded data for student ID: " ++ sid]⟩
    | none => ⟨ud2, none, []⟩

/-- `time(hour=h, minute=m)`: raises `ValueError` (here `none`) unless
`0 <= h <= 23` and `0 <= m <= 59`. -/
def mkTime (h m : Nat) : Option ClockTime :=
  if h < 24 ∧ m < 60 then some ⟨h, m⟩ else none

/-- `add_section` from `src/main.py`.  State touched: the pending
section list `current_course_sections`, plus the messages shown.  The
day string is capitalized; invalid spinbox values or an end time not
after the start time reject the section and leave the list unchanged. -/
def add_section (pending : List Section) (day : String) (sh sm eh em : Nat) :
    List Section × List String :=
  match mkTime sh sm, mkTime eh em with
  | some st, some et =>
    if timeLe et st then (pending, ["End time must be after start time."])
    else (pending ++ [⟨pyCapitalize day, st, et⟩], [])
  | _, _ => (pending, ["Invalid time values."])

/-- `edit_course` from `src/main.py`, given the selected course name:
its sections are copied into the editor (`current_course_sections`) and
the course is deleted from `active_courses`. -/
def edit_course (active : Catalog) (cname : String) : Catalog × List Section :=
  (delKey active cname, (active.lookup cname).getD [])

/-- `save_course` from `src/main.py`: with an active student, a
non-blank name and a non-empty pending section list, the pending
sections are stored under the name in `active_courses` and the editor is
cleared; otherwise nothing changes. -/
def save_course (activeStudent : Option String) (active : Catalog)
    (cname : String) (pending : List Section) :
    Catalog × List Section × List String :=
  match activeStudent with
  | none => (active, pending, ["No active student. Please load a student first."])
  | some _ =>
    if cname = "" then (active, pending, ["Please enter a Course Name."])
    else if pending = [] then (active, pending, ["No sections for this course."])
    else (setKey active cname pending, [],
      ["Course " ++ cname ++ " saved/updated."])

/-!  ## Theorems about the overlap predicate and the validator  -/

/-- C1: `is_valid_schedule` returns true iff no two distinct sections of
the candidate schedule overlap under `times_overlap` (every unordered
pair of positions is checked). -/
theorem is_valid_schedule_iff_pairwise (l : List Section) :
    is_valid_schedule l = true ↔
      List.Pairwise (fun a b => times_overlap a b = false) l := by
  rw [List.pairwise_iff_getElem]
  simp only [is_valid_schedule, List.all_eq_true, List.mem_range, List.mem_range'_1,
    Bool.not_eq_true', and_imp]
  constructor
  · intro h i j hi hj hij
    have := h i hi j (by omega) (by omega)
    rwa [List.getD_eq_getElem _ _ hi, List.getD_eq_getElem _ _ hj] at this
  · intro h i hi j hj1 hj2
    have hjlen : j < l.length := by omega
    have := h i j hi hjlen (by omega)
    rwa [List.getD_eq_getElem _ _ hi, List.getD_eq_getElem _ _ hjlen]

/-- C2: `times_overlap` is false whenever the (case-insensitively
compared) day strings differ, and on equal days it holds exactly when
`a.start < b.end` and `b.start < a.end` (half-open intervals); two
back-to-back sections do not overlap while a one-minute overhang does. -/
theorem times_overlap_spec :
    (∀ a b : Section, pyLower a.day ≠ pyLower b.day → times_overlap a b = false) ∧
    (∀ a b : Section, pyLower a.day = pyLower b.day →
      (times_overlap a b = true ↔
        (timeLt a.start b.stop = true ∧ timeLt b.start a.stop = true))) ∧
    times_overlap ⟨"Mon", ⟨9, 0⟩, ⟨10, 0⟩⟩ ⟨"Mon", ⟨10, 0⟩, ⟨11, 0⟩⟩ = false ∧
    times_overlap ⟨"Mon", ⟨9, 0⟩, ⟨10, 0⟩⟩ ⟨"Mon", ⟨9, 59⟩, ⟨10, 30⟩⟩ = true := by
  refine ⟨?_, ?_, by decide, by decide⟩
  · intro a b h
    simp [times_overlap, h]
  · intro a b h
    simp [times_overlap, h]

/-- Witness for C2 at concrete inputs. -/
theorem times_overlap_spec_witness :
    times_overlap ⟨"tue", ⟨8, 0⟩, ⟨9, 0⟩⟩ ⟨"Wed", ⟨8, 0⟩, ⟨9, 0⟩⟩ = false ∧
    (times_overlap ⟨"Tue", ⟨8, 0⟩, ⟨9, 30⟩⟩ ⟨"tue", ⟨9, 0⟩, ⟨10, 0⟩⟩ = true ↔
      (timeLt ⟨8, 0⟩ ⟨10, 0⟩ = true ∧ timeLt ⟨9, 0⟩ ⟨9, 30⟩ = true)) :=
  ⟨times_overlap_spec.1 ⟨"tue", ⟨8, 0⟩, ⟨9, 0⟩⟩ ⟨"Wed", ⟨8, 0⟩, ⟨9, 0⟩⟩ (by decide),
   times_overlap_spec.2.1 ⟨"Tue", ⟨8, 0⟩, ⟨9, 30⟩⟩ ⟨"tue", ⟨9, 0⟩, ⟨10, 0⟩⟩ (by decide)⟩

/-- C3: the overlap predicate is symmetric for all sections, whatever
the day strings and times. -/
theorem times_overlap_symm (a b : Section) :
    times_overlap a b = times_overlap b a := by
  unfold times_overlap
  by_cases h : pyLower a.day = pyLower b.day
  · rw [if_neg (not_not_intro h), if_neg (not_not_intro h.symm), Bool.and_comm]
  · rw [if_pos h, if_pos fun hb => h hb.symm]

/-!  ## Theorems about schedule generation  -/

/-- A cartesian product with an empty factor is empty. -/
theorem productLists_of_mem_nil :
    ∀ ls : List (List Section), [] ∈ ls → productLists ls = [] := by
  intro ls h
  induction ls with
  | nil => cases h
  | cons l ls ih =>
    rcases List.mem_cons.mp h with h1 | h2
    · rw [← h1]; rfl
    · simp [productLists, ih h2]

/-- C4: if any course of the catalog has an empty section list, schedule
generation produces no schedules at all, the enumerator being the
cartesian product of the per-course section lists. -/
theorem generate_schedules_empty_factor (courses : List (String × List Section))
    (h : ∃ c ∈ courses, c.2 = []) : generate_schedules courses = [] := by
  obtain ⟨c, hc, hce⟩ := h
  have hne : courses ≠ [] := by
    intro h0
    rw [h0] at hc
    cases hc
  have hmem : ([] : List Section) ∈ courses.map Prod.snd := by
    rw [← hce]
    exact List.mem_map_of_mem _ hc
  unfold generate_schedules
  rw [if_neg hne, productLists_of_mem_nil _ hmem]
  rfl

/-- Witness for C4: one sectionless course next to a schedulable one. -/
theorem generate_schedules_empty_factor_witness :
    generate_schedules
      [("Empty", []), ("Phys", [⟨"Monday", ⟨8, 0⟩, ⟨9, 0⟩⟩])] = [] :=
  generate_schedules_empty_factor
    [("Empty", []), ("Phys", [⟨"Monday", ⟨8, 0⟩, ⟨9, 0⟩⟩])]
    ⟨("Empty", []), by decide, rfl⟩

/-- C5: every schedule displayed by `generate_schedules` is sorted
non-decreasingly by the key `(get_day_index day, start)`; `get_day_index`
maps monday→0 … sunday→6 case-insensitively and sends any unrecognized
day string to the sentinel 999. -/
theorem generate_schedules_display_sorted :
    (∀ (courses : List (String × List Section)) (sched : List DisplayEntry),
        sched ∈ generate_schedules courses → List.Sorted keyLE sched) ∧
    get_day_index "Monday" = 0 ∧ get_day_index "Tuesday" = 1 ∧
    get_day_index "Wednesday" = 2 ∧ get_day_index "Thursday" = 3 ∧
    get_day_index "Friday" = 4 ∧ get_day_index "Saturday" = 5 ∧
    get_day_index "Sunday" = 6 ∧ get_day_index "MONDAY" = 0 ∧
    get_day_index "sUnDaY" = 6 ∧
    (∀ s : String, day_order.lookup (pyLower s) = none → get_day_index s = 999) := by
  refine ⟨?_, by decide, by decide, by decide, by decide, by decide, by decide,
    by decide, by decide, by decide, ?_⟩
  · intro courses sched h
    unfold generate_schedules at h
    split at h
    · cases h
    · obtain ⟨combo, _, hs⟩ := List.mem_map.mp h
      rw [← hs]
      exact List.sorted_insertionSort keyLE _
  · intro s h
    unfold get_day_index
    rw [h]
    rfl

/-- Witness for C5: a concrete generated schedule and an unknown day. -/
theorem generate_schedules_display_sorted_witness :
    List.Sorted keyLE
      [(("Monday" : String), (⟨9, 0⟩ : ClockTime), (⟨10, 0⟩ : ClockTime), ("Math" : String))] ∧
    get_day_index "Blursday" = 999 :=
  ⟨generate_schedules_display_sorted.1
      [("Math", [⟨"Monday", ⟨9, 0⟩, ⟨10, 0⟩⟩])]
      [("Monday", ⟨9, 0⟩, ⟨10, 0⟩, "Math")] (by decide),
   generate_schedules_display_sorted.2.2.2.2.2.2.2.2.2.2 "Blursday" (by decide)⟩

/-!  ## Theorems about persistence error handling  -/

/-- C6 counterexample: an automatically triggered save whose file write
fails shows no message at all — the failure is silently ignored, against
the claim that every save (autosaves included) reports write failures. -/
theorem auto_save_failure_is_silent :
    (auto_save (some "s1") [("Math", [⟨"Monday", ⟨9, 0⟩, ⟨10, 0⟩⟩])] []
      (WriteResult.failed "disk full")).2 = [] := rfl

/-- C6 (amended): an explicitly requested (non-auto) save with an active
student reports a write failure with its reason, while an automatic save
silently ignores write failures. -/
theorem save_failure_reporting :
    (∀ (sid : String) (courses : Catalog) (ud : UsersData) (e : String),
      (save_student_data (some sid) courses ud (WriteResult.failed e) false).2 =
        ["Error saving data: " ++ e]) ∧
    (∀ (st : Option String) (courses : Catalog) (ud : UsersData) (e : String),
      (auto_save st courses ud (WriteResult.failed e)).2 = []) := by
  constructor
  · intro sid courses ud e
    rfl
  · intro st courses ud e
    cases st <;> rfl

/-- C7 counterexample: loading with the store file *missing* leaves the
previously loaded in-memory multi-student state fully intact — nothing
is reset to empty and the student keeps a non-empty catalog. -/
theorem load_missing_file_keeps_state :
    (load_student_data "s1" [("s1", [("Math", [("Monday", "09:00", "10:00")])])]
        StoreRead.missing).usersData =
      [("s1", [("Math", [("Monday", "09:00", "10:00")])])] ∧
    (load_student_data "s1" [("s1", [("Math", [("Monday", "09:00", "10:00")])])]
        StoreRead.missing).activeCourses =
      some [("Math", [⟨"Monday", ⟨9, 0⟩, ⟨10, 0⟩⟩])] := by
  constructor <;> rfl

/-- C7 (amended): an unparsable store resets the multi-student state to
empty (the student then gets a blank catalog) without raising; a
*missing* store file instead leaves the in-memory state unchanged, only
adding a blank entry for the student when absent. -/
theorem load_error_policy :
    (∀ (sid : String) (ud : UsersData), sid ≠ "" →
      (load_student_data sid ud StoreRead.unparsable).usersData = [(sid, [])] ∧
      (load_student_data sid ud StoreRead.unparsable).activeCourses = some []) ∧
    (∀ (sid : String) (ud : UsersData), sid ≠ "" → containsKey ud sid = true →
      (load_student_data sid ud StoreRead.missing).usersData = ud) ∧
    (∀ (sid : String) (ud : UsersData), sid ≠ "" → containsKey ud sid = false →
      (load_student_data sid ud StoreRead.missing).usersData = ud ++ [(sid, [])]) := by
  refine ⟨?_, ?_, ?_⟩
  · intro sid ud h
    unfold load_student_data
    rw [if_neg h]
    have hc : containsKey ([] : UsersData) sid = false := rfl
    simp only [hc, List.lookup, parseCatalog, beq_self_eq_true]
    exact ⟨rfl, rfl⟩
  · intro sid ud h hc
    unfold load_student_data
    rw [if_neg h]
    simp only [hc, if_true]
    split <;> rfl
  · intro sid ud h hc
    unfold load_student_data
    rw [if_neg h]
    simp only [hc, Bool.false_eq_true, if_false]
    split <;> rfl

/-- Witness for the amended C7 at concrete inputs. -/
theorem load_error_policy_witness :
    (load_student_data "s1" [("s2", [("Math", [("Monday", "09:00", "10:00")])])]
        StoreRead.unparsable).usersData = [("s1", [])] ∧
    (load_student_data "s1" [("s2", [("Math", [("Monday", "09:00", "10:00")])])]
        StoreRead.missing).usersData =
      [("s2", [("Math", [("Monday", "09:00", "10:00")])]), ("s1", [])] :=
  ⟨(load_error_policy.1 "s1" [("s2", [("Math", [("Monday", "09:00", "10:00")])])]
      (by decide)).1,
   load_error_policy.2.2 "s1" [("s2", [("Math", [("Monday", "09:00", "10:00")])])]
      (by decide) (by decide)⟩

/-!  ## Round-trip of the persisted representation  -/

/-- A decimal digit character is recognized as a digit. -/
theorem digitChar_isDigit (d : Nat) (hd : d < 10) :
    (digitChar d).isDigit = true := by
  interval_cases d <;> decide

/-- Reading back the code point of a decimal digit character. -/
theorem digitChar_toNat (d : Nat) (hd : d < 10) :
    (digitChar d).toNat = 48 + d := by
  interval_cases d <;> decide

/-- The clock-time round trip for any in-range time. -/
theorem string_to_time_time_to_string (t : ClockTime) (hh : t.hour < 24)
    (hm : t.minute < 60) : string_to_time (time_to_string t) = some t := by
  obtain ⟨h, m⟩ := t
  replace hh : h < 24 := hh
  replace hm : m < 60 := hm
  have h1 : h / 10 < 10 := by omega
  have h2 : h % 10 < 10 := by omega
  have m1 : m / 10 < 10 := by omega
  have m2 : m % 10 < 10 := by omega
  unfold time_to_string nat2 string_to_time
  simp only [List.cons_append, List.nil_append, takeDigits2,
    digitChar_isDigit _ h1, digitChar_isDigit _ h2, digitChar_isDigit _ m1,
    digitChar_isDigit _ m2, if_true, digitChar_toNat _ h1, digitChar_toNat _ h2,
    digitChar_toNat _ m1, digitChar_toNat _ m2]
  have e1 : (48 + h / 10 - 48) * 10 + (48 + h % 10 - 48) = h := by omega
  have e2 : (48 + m / 10 - 48) * 10 + (48 + m % 10 - 48) = m := by omega
  rw [e1, e2]
  simp [hh, hm]

/-- A section whose times are the in-range values a `datetime.time`
always carries. -/
def validSectionTimes (s : Section) : Prop :=
  s.start.hour < 24 ∧ s.start.minute < 60 ∧ s.stop.hour < 24 ∧ s.stop.minute < 60

instance : DecidablePred validSectionTimes := fun s => by
  unfold validSectionTimes; infer_instance

/-- Deserializing an in-range serialized section gives it back. -/
theorem parseSection_stringifySection (s : Section) (h : validSectionTimes s) :
    parseSection (stringifySection s) = some s := by
  obtain ⟨h1, h2, h3, h4⟩ := h
  unfold parseSection stringifySection
  rw [string_to_time_time_to_string s.start h1 h2,
    string_to_time_time_to_string s.stop h3 h4]

/-- `mapM` over `Option` of a mapped list whose elements all come back. -/
theorem mapM_map_eq_some {α β : Type} (g : α → β) (f : β → Option α) :
    ∀ l : List α, (∀ x ∈ l, f (g x) = some x) → (l.map g).mapM f = some l := by
  intro l h
  induction l with
  | nil => rfl
  | cons x xs ih =>
    rw [List.map_cons, List.mapM_cons, h x (List.mem_cons_self x xs),
      ih fun y hy => h y (List.mem_cons_of_mem x hy)]
    rfl

/-- Deserializing a serialized catalog of in-range sections gives it
back unchanged. -/
theorem parseCatalog_stringifyCatalog (c : Catalog)
    (h : ∀ p ∈ c, ∀ s ∈ p.2, validSectionTimes s) :
    parseCatalog (stringifyCatalog c) = some c := by
  show (c.map fun p => (p.1, p.2.map stringifySection)).mapM
      (fun p => (p.2.mapM parseSection).map fun secs => (p.1, secs)) = some c
  apply mapM_map_eq_some
  intro p hp
  show ((p.2.map stringifySection).mapM parseSection).map
      (fun secs => (p.1, secs)) = some p
  rw [mapM_map_eq_some stringifySection parseSection p.2
    fun s hs => parseSection_stringifySection s (h p hp s hs)]
  rfl

/-- A dict assignment makes the key present. -/
theorem containsKey_setKey {β : Type} (l : List (String × β)) (k : String) (v : β) :
    containsKey (setKey l k v) k = true := by
  unfold setKey
  split
  · rename_i h
    unfold containsKey at h ⊢
    simp only [List.any_eq_true] at h ⊢
    obtain ⟨p, hp, hpk⟩ := h
    exact ⟨(k, v), List.mem_map.mpr ⟨p, hp, by simp [hpk]⟩, by simp⟩
  · unfold containsKey
    simp [List.any_append]

/-- Replacing the value at a present key makes lookup return it. -/
theorem lookup_map_replace {β : Type} (k : String) (v : β) :
    ∀ l : List (String × β), containsKey l k = true →
      (l.map fun p => if p.1 == k then (k, v) else p).lookup k = some v := by
  intro l h
  induction l with
  | nil => exact absurd h (by simp [containsKey])
  | cons p ps ih =>
    cases hb : (p.1 == k) with
    | true =>
      simp only [List.map_cons]
      rw [if_pos hb]
      simp [List.lookup]
    | false =>
      have h2 : containsKey ps k = true := by
        unfold containsKey at h ⊢
        simpa [List.any_cons, hb] using h
      have hkp : (k == p.1) = false := by
        rw [beq_eq_false_iff_ne] at hb ⊢
        exact fun he => hb he.symm
      simp only [List.map_cons]
      rw [if_neg (by simp [hb])]
      simp only [List.lookup, hkp]
      exact ih h2

/-- Appending a fresh key makes lookup return its value. -/
theorem lookup_append_self {β : Type} (k : String) (v : β) :
    ∀ l : List (String × β), containsKey l k = false →
      (l ++ [(k, v)]).lookup k = some v := by
  intro l h
  induction l with
  | nil => simp [List.lookup]
  | cons p ps ih =>
    unfold containsKey at h
    simp only [List.any_cons, Bool.or_eq_false_iff] at h
    obtain ⟨h1, h2⟩ := h
    have hkp : (k == p.1) = false := by
      rw [beq_eq_false_iff_ne] at h1 ⊢
      exact fun he => h1 he.symm
    simp only [List.cons_append, List.lookup, hkp]
    exact ih h2

/-- Python `d[k] = v` followed by `d[k]` gives `v` back. -/
theorem lookup_setKey {β : Type} (l : List (String × β)) (k : String) (v : β) :
    (setKey l k v).lookup k = some v := by
  unfold setKey
  split
  · rename_i h
    exact lookup_map_replace k v l h
  · rename_i h
    exact lookup_append_self k v l (by simpa using h)

/-- C8: persistence round-trips — serializing any in-range time and
parsing it back is the identity, and saving a student's catalog and
then loading that student yields the original catalog. -/
theorem save_load_roundtrip :
    (∀ t : ClockTime, t.hour < 24 → t.minute < 60 →
      string_to_time (time_to_string t) = some t) ∧
    (∀ (sid : String) (c : Catalog) (ud ud2 : UsersData) (auto : Bool),
      sid ≠ "" → (∀ p ∈ c, ∀ s ∈ p.2, validSectionTimes s) →
      (load_student_data sid ud2
          (StoreRead.parsed
            (save_student_data (some sid) c ud WriteResult.ok auto).1)).activeCourses =
        some c) := by
  refine ⟨fun t hh hm => string_to_time_time_to_string t hh hm, ?_⟩
  intro sid c ud ud2 auto hsid hvalid
  have hsave : (save_student_data (some sid) c ud WriteResult.ok auto).1 =
      setKey ud sid (stringifyCatalog c) := rfl
  rw [hsave]
  unfold load_student_data
  rw [if_neg hsid]
  simp only [containsKey_setKey, if_true, lookup_setKey, Option.getD_some,
    parseCatalog_stringifyCatalog c hvalid]

/-- Witness for C8 at a concrete catalog and student id. -/
theorem save_load_roundtrip_witness :
    string_to_time (time_to_string ⟨14, 0⟩) = some ⟨14, 0⟩ ∧
    (load_student_data "s1" []
        (StoreRead.parsed
          (save_student_data (some "s1")
            [("Algo", [⟨"Tuesday", ⟨14, 0⟩, ⟨15, 20⟩⟩])] []
            WriteResult.ok false).1)).activeCourses =
      some [("Algo", [⟨"Tuesday", ⟨14, 0⟩, ⟨15, 20⟩⟩])] :=
  ⟨save_load_roundtrip.1 ⟨14, 0⟩ (by decide) (by decide),
   save_load_roundtrip.2 "s1" [("Algo", [⟨"Tuesday", ⟨14, 0⟩, ⟨15, 20⟩⟩])] [] [] false
     (by decide) (by decide)⟩

/-!  ## Section construction and course editing  -/

/-- Totality of the time order: a failed `<=` flips to a strict `<`. -/
theorem timeLt_of_timeLe_false (a b : ClockTime) (h : timeLe a b = false) :
    timeLt b a = true := by
  unfold timeLe at h
  unfold timeLt
  simp only [decide_eq_false_iff_not] at h
  simp only [decide_eq_true_eq]
  omega

/-- C9: an add-section request whose end time is not strictly after its
start time is a no-op that informs the caller, and consequently every
section in the pending list keeps satisfying `start < end`. -/
theorem add_section_validation :
    (∀ (pending : List Section) (day : String) (sh sm eh em : Nat)
        (st et : ClockTime), mkTime sh sm = some st → mkTime eh em = some et →
      timeLe et st = true →
      add_section pending day sh sm eh em =
        (pending, ["End time must be after start time."])) ∧
    (∀ (pending : List Section) (day : String) (sh sm eh em : Nat),
      (∀ s ∈ pending, timeLt s.start s.stop = true) →
      ∀ s ∈ (add_section pending day sh sm eh em).1,
        timeLt s.start s.stop = true) := by
  constructor
  · intro pending day sh sm eh em st et h1 h2 h3
    unfold add_section
    rw [h1, h2]
    simp only [if_pos h3]
  · intro pending day sh sm eh em hinv s hs
    unfold add_section at hs
    cases hst : mkTime sh sm with
    | none =>
      simp only [hst] at hs
      exact hinv s hs
    | some st =>
      cases het : mkTime eh em with
      | none =>
        simp only [hst, het] at hs
        exact hinv s hs
      | some et =>
        simp only [hst, het] at hs
        by_cases hle : timeLe et st = true
        · rw [if_pos hle] at hs
          exact hinv s hs
        · rw [if_neg hle] at hs
          rcases List.mem_append.mp hs with hmem | hmem
          · exact hinv s hmem
          · have hseq : s = ⟨pyCapitalize day, st, et⟩ := List.mem_singleton.mp hmem
            subst hseq
            exact timeLt_of_timeLe_false et st (Bool.eq_false_iff.mpr hle)

/-- Witness for C9: a rejected backwards section and an accepted one. -/
theorem add_section_validation_witness :
    add_section [] "Monday" 10 0 9 0 = ([], ["End time must be after start time."]) ∧
    timeLt (⟨9, 0⟩ : ClockTime) ⟨10, 0⟩ = true :=
  ⟨add_section_validation.1 [] "Monday" 10 0 9 0 ⟨10, 0⟩ ⟨9, 0⟩ rfl rfl (by decide),
   add_section_validation.2 [] "Monday" 9 0 10 0
     (fun s hs => absurd hs (List.not_mem_nil s))
     ⟨"Monday", ⟨9, 0⟩, ⟨10, 0⟩⟩ (by decide)⟩

/-- Deleting a key removes it from lookup. -/
theorem lookup_delKey_self {β : Type} (k : String) :
    ∀ l : List (String × β), (delKey l k).lookup k = none := by
  intro l
  induction l with
  | nil => rfl
  | cons p ps ih =>
    cases hb : (p.1 == k) with
    | true =>
      simp only [delKey, List.filter_cons, bne, hb, Bool.not_true,
        Bool.false_eq_true, if_false]
      exact ih
    | false =>
      have hkp : (k == p.1) = false := by
        rw [beq_eq_false_iff_ne] at hb ⊢
        exact fun he => hb he.symm
      simp only [delKey, List.filter_cons, bne, hb, Bool.not_false, if_true,
        List.lookup, hkp]
      exact ih

/-- Deleting a key leaves every other key's lookup unchanged. -/
theorem lookup_delKey_ne {β : Type} (k k2 : String) (hne : k2 ≠ k) :
    ∀ l : List (String × β), (delKey l k).lookup k2 = l.lookup k2 := by
  intro l
  induction l with
  | nil => rfl
  | cons p ps ih =>
    cases hb : (p.1 == k) with
    | true =>
      have hp : p.1 = k := by simpa using hb
      have hk2p : (k2 == p.1) = false := by
        rw [beq_eq_false_iff_ne, hp]
        exact hne
      simp only [delKey, List.filter_cons, bne, hb, Bool.not_true,
        Bool.false_eq_true, if_false, List.lookup, hk2p] at ih ⊢
      exact ih
    | false =>
      cases hk2 : (k2 == p.1) with
      | true =>
        simp only [delKey, List.filter_cons, bne, hb, Bool.not_false, if_true,
          List.lookup, hk2]
      | false =>
        simp only [delKey, List.filter_cons, bne, hb, Bool.not_false, if_true,
          List.lookup, hk2] at ih ⊢
        exact ih

/-- Serialization preserves the key structure of a catalog. -/
theorem lookup_stringifyCatalog (c : Catalog) (k : String) :
    (stringifyCatalog c).lookup k = (c.lookup k).map (List.map stringifySection) := by
  induction c with
  | nil => rfl
  | cons p ps ih =>
    cases hk : (k == p.1) with
    | true => simp only [stringifyCatalog, List.map_cons, List.lookup, hk, Option.map_some']
    | false =>
      simp only [stringifyCatalog, List.map_cons, List.lookup, hk] at ih ⊢
      exact ih

/-- C10: `edit_course` on a course of the active catalog removes exactly
that course — its own lookup becomes `none`, every other course is
untouched — and any save performed before the course is re-saved
persists a record without it. -/
theorem edit_course_removes (active : Catalog) (c : String)
    (h : containsKey active c = true) :
    ((edit_course active c).1.lookup c = none) ∧
    (∀ c2 : String, c2 ≠ c →
      (edit_course active c).1.lookup c2 = active.lookup c2) ∧
    ((stringifyCatalog (edit_course active c).1).lookup c = none) ∧
    (∀ (sid : String) (ud : UsersData) (w : WriteResult) (auto : Bool),
      ((save_student_data (some sid) (edit_course active c).1 ud w auto).1).lookup sid =
        some (stringifyCatalog (edit_course active c).1)) := by
  refine ⟨lookup_delKey_self c active, fun c2 h2 => lookup_delKey_ne c c2 h2 active,
    ?_, ?_⟩
  · rw [lookup_stringifyCatalog]
    have he : (edit_course active c).1 = delKey active c := rfl
    rw [he, lookup_delKey_self]
    rfl
  · intro sid ud w auto
    have hsv : (save_student_data (some sid) (edit_course active c).1 ud w auto).1 =
        setKey ud sid (stringifyCatalog (edit_course active c).1) := by
      cases w <;> rfl
    rw [hsv, lookup_setKey]

/-- Witness for C10 on a two-course catalog. -/
theorem edit_course_removes_witness :
    (edit_course [("Math", [⟨"Monday", ⟨9, 0⟩, ⟨10, 0⟩⟩]),
        ("Phys", [⟨"Tuesday", ⟨8, 0⟩, ⟨9, 0⟩⟩])] "Math").1.lookup "Math" = none ∧
    (edit_course [("Math", [⟨"Monday", ⟨9, 0⟩, ⟨10, 0⟩⟩]),
        ("Phys", [⟨"Tuesday", ⟨8, 0⟩, ⟨9, 0⟩⟩])] "Math").1.lookup "Phys" =
      ([("Math", [⟨"Monday", ⟨9, 0⟩, ⟨10, 0⟩⟩]),
        ("Phys", [⟨"Tuesday", ⟨8, 0⟩, ⟨9, 0⟩⟩])] : Catalog).lookup "Phys" ∧
    (stringifyCatalog (edit_course [("Math", [⟨"Monday", ⟨9, 0⟩, ⟨10, 0⟩⟩]),
        ("Phys", [⟨"Tuesday", ⟨8, 0⟩, ⟨9, 0⟩⟩])] "Math").1).lookup "Math" = none :=
  ⟨(edit_course_removes [("Math", [⟨"Monday", ⟨9, 0⟩, ⟨10, 0⟩⟩]),
      ("Phys", [⟨"Tuesday", ⟨8, 0⟩, ⟨9, 0⟩⟩])] "Math" (by decide)).1,
   (edit_course_removes [("Math", [⟨"Monday", ⟨9, 0⟩, ⟨10, 0⟩⟩]),
      ("Phys", [⟨"Tuesday", ⟨8, 0⟩, ⟨9, 0⟩⟩])] "Math" (by decide)).2.1 "Phys"
      (by decide),
   (edit_course_removes [("Math", [⟨"Monday", ⟨9, 0⟩, ⟨10, 0⟩⟩]),
      ("Phys", [⟨"Tuesday", ⟨8, 0⟩, ⟨9, 0⟩⟩])] "Math" (by decide)).2.2.1⟩

end CourseScheduler
